import Mathlib

/-!
Verification development for the `BioinfoAgent` aggregation pipeline
(src/agenttest.py).  Python strings are embedded as lists of characters,
JSON payloads as an inductive tree, and each network-facing client is
modelled by the outcome it returned in one run (an `Option` value in an
environment record), exactly as the orchestrator observes it.
-/

namespace Bioinfo

/-- A Python string, embedded as its list of characters. -/
abbrev PyStr := List Char

/-- The whitespace characters removed by Python `str.strip()` with no
argument: space, tab, newline, carriage return, vertical tab, form feed. -/
def pyIsSpace (c : Char) : Bool :=
  c == ' ' || c == '\t' || c == '\n' || c == '\r' || c == '\x0b' || c == '\x0c'

/-- Python `str.strip()`: drop whitespace from both ends. -/
def pyStrip (s : PyStr) : PyStr :=
  ((s.dropWhile pyIsSpace).reverse.dropWhile pyIsSpace).reverse

/-- Python `str.upper()` on the basic latin range (character-wise). -/
def pyUpper (s : PyStr) : PyStr := s.map Char.toUpper

/-- Python `str.lower()` on the basic latin range (character-wise). -/
def pyLower (s : PyStr) : PyStr := s.map Char.toLower

/-- Python `str.replace("rs", "")`: remove every non-overlapping
occurrence of the substring `rs`, scanning left to right.  Specialised to
the pattern/replacement pair used at src/agenttest.py line 147. -/
def pyReplaceRS : PyStr → PyStr
  | [] => []
  | [c] => [c]
  | c :: d :: rest =>
    if c = 'r' ∧ d = 's' then pyReplaceRS rest
    else c :: pyReplaceRS (d :: rest)

/-- Embedding of `BioinfoAgent.classify_input` (src/agenttest.py lines
18-23): strip and uppercase the query; `snp` when it starts with `RS`,
`gene` otherwise. -/
def classify_input (query : PyStr) : PyStr :=
  if ['R', 'S'].isPrefixOf (pyUpper (pyStrip query)) then "snp".data
  else "gene".data

/-- The id actually sent to the NCBI dbSNP esummary endpoint by
`BioinfoAgent.collect_ncbi_snp` (src/agenttest.py line 147):
`snp_id.lower().replace("rs", "")`. -/
def collect_ncbi_snp_id (snp_id : PyStr) : PyStr :=
  pyReplaceRS (pyLower snp_id)

/-- Does the string contain an occurrence of the substring `rs`? -/
def containsRS : PyStr → Bool
  | [] => false
  | [_] => false
  | c :: d :: rest => (c == 'r' && d == 's') || containsRS (d :: rest)

/-- A JSON-like value, as returned by the clients after parsing. -/
inductive Jx where
  | null : Jx
  | b : Bool → Jx
  | num : Int → Jx
  | str : PyStr → Jx
  | arr : List Jx → Jx
  | obj : List (PyStr × Jx) → Jx

/-- Python truthiness of a parsed JSON value (`if data:`):
`None`, `False`, `0`, `""`, `[]` and `{}` are falsy. -/
def jxTruthy : Jx → Bool
  | .null => false
  | .b v => v
  | .num n => !(n == 0)
  | .str s => !s.isEmpty
  | .arr xs => !xs.isEmpty
  | .obj kvs => !kvs.isEmpty

/-- Truthiness of an `Optional` client result: `None` is falsy. -/
def optTruthy : Option Jx → Bool
  | none => false
  | some j => jxTruthy j

/-- Embedding of `BioinfoAgent.collect_ensembl_variants`
(src/agenttest.py lines 49-68), with the network modelled: `httpResult`
is the decoded JSON array of the overlap query (`none` on any
transport/decode error, which the `except` arm turns into `None`).
Returns `None` for a falsy `gene_data`, otherwise the first 10 entries
(`response.json()[:10]`). -/
def collect_ensembl_variants (gene_data : Jx) (httpResult : Option (List Jx)) :
    Option (List Jx) :=
  if jxTruthy gene_data then
    match httpResult with
    | some xs => some (xs.take 10)
    | none => none
  else none

/-- One run's client outcomes, as observed by the orchestrator: each
field is the value the corresponding `collect_*` call returned (`none`
both on transport failure and on logical absence, exactly the cases where
the Python function returns `None`).  `overlapHttp` is the decoded HTTP
response feeding `collect_ensembl_variants`. -/
structure Env where
  myvariant : Option Jx
  clinicaltables : Option Jx
  ensembl_vep : Option Jx
  ncbi_snp : Option Jx
  ensembl_gene : Option Jx
  overlapHttp : Option (List Jx)
  ncbi_gene : Option Jx
  uniprot : Option Jx

/-- The environment in which every client fails (returns `None`). -/
def failEnv : Env :=
  ⟨none, none, none, none, none, none, none, none⟩

/-- The `sources` mapping: a Python dict written once per key, embedded
as an insertion-ordered association list. -/
abbrev Sources := List (PyStr × Jx)

/-- One `if data: sources[key] = data` step of the orchestrator. -/
def record (s : Sources) (k : PyStr) (v : Option Jx) : Sources :=
  match v with
  | some j => if jxTruthy j then s ++ [(k, j)] else s
  | none => s

/-- Keys of a sources mapping, in insertion order. -/
def srcKeys (s : Sources) : List PyStr := s.map Prod.fst

/-- Dict lookup on a sources mapping. -/
def lookupSrc (s : Sources) (k : PyStr) : Option Jx :=
  match s with
  | [] => none
  | (k2, v) :: t => if k2 = k then some v else lookupSrc t k

/-- The `collected_data` dict built by `collect_all_data`. -/
structure AggregateRecord where
  query : PyStr
  type : PyStr
  sources : Sources

/-- Embedding of `BioinfoAgent.collect_all_data` (src/agenttest.py lines
190-252): normalize the query, classify it, then attempt the clients of
the applicable branch in order, recording each truthy result. -/
def collect_all_data (env : Env) (rawQuery : PyStr) : AggregateRecord :=
  let query := pyLower (pyStrip rawQuery)
  let query_type := classify_input query
  let s := record [] ("myvariant".data) env.myvariant
  let s :=
    if query_type = "snp".data then
      let s := record s ("clinicaltables".data) env.clinicaltables
      let s := record s ("ensembl_vep".data) env.ensembl_vep
      record s ("ncbi_dbsnp".data) env.ncbi_snp
    else
      let s :=
        match env.ensembl_gene with
        | some eg =>
          if jxTruthy eg then
            let s := s ++ [(("ensembl_gene".data), eg)]
            match collect_ensembl_variants eg env.overlapHttp with
            | some variants =>
              if variants.isEmpty then s
              else
                s ++ [(("ensembl_variants".data),
                  Jx.obj [(("count".data), Jx.num (variants.length : Int)),
                          (("sample".data), Jx.arr (variants.take 10))])]
            | none => s
          else s
        | none => s
      let s := record s ("ncbi_gene".data) env.ncbi_gene
      record s ("uniprot".data) env.uniprot
  { query := query, type := query_type, sources := s }

/-- The final result dict of `BioinfoAgent.run` (src/agenttest.py lines
269-283). -/
structure ResultPayload where
  query : PyStr
  type : PyStr
  data_sources_used : List PyStr
  raw_data : Sources
  ai_summary : PyStr

/-- Embedding of `BioinfoAgent.run` (src/agenttest.py lines 269-283):
collect, then summarize (the external language-model call is modelled by
the `summarize` oracle), then assemble the result dict.  Note the
`query` field of the result is the raw `query` argument, not the
normalized `collected_data["query"]`. -/
def run (env : Env) (summarize : AggregateRecord → PyStr) (query : PyStr) :
    ResultPayload :=
  let collected := collect_all_data env query
  { query := query
    type := collected.type
    data_sources_used := srcKeys collected.sources
    raw_data := collected.sources
    ai_summary := summarize collected }

/-- The source keys the snp branch can record, in invocation order. -/
def snpKeys : List PyStr :=
  ["myvariant".data, "clinicaltables".data, "ensembl_vep".data, "ncbi_dbsnp".data]

/-- The source keys the gene branch can record, in invocation order. -/
def geneKeys : List PyStr :=
  ["myvariant".data, "ensembl_gene".data, "ensembl_variants".data,
   "ncbi_gene".data, "uniprot".data]

/-- The zero-or-one-entry fragment of `sources` contributed by one
`if data: sources[key] = data` step. -/
def optEntry (k : PyStr) (v : Option Jx) : Sources :=
  match v with
  | some j => if jxTruthy j then [(k, j)] else []
  | none => []

/-- The fragment of `sources` contributed by the `ensembl_gene` step. -/
def geneEntry (env : Env) : Sources :=
  match env.ensembl_gene with
  | some eg => if jxTruthy eg then [(("ensembl_gene".data), eg)] else []
  | none => []

/-- The fragment of `sources` contributed by the `ensembl_variants`
step (which runs only inside the truthy-`ensembl_gene` block). -/
def variantsEntry (env : Env) : Sources :=
  match env.ensembl_gene with
  | some eg =>
    if jxTruthy eg then
      match collect_ensembl_variants eg env.overlapHttp with
      | some variants =>
        if variants.isEmpty then []
        else
          [(("ensembl_variants".data),
            Jx.obj [(("count".data), Jx.num (variants.length : Int)),
                    (("sample".data), Jx.arr (variants.take 10))])]
      | none => []
    else []
  | none => []

/-- Whether the `ensembl_variants` key gets recorded: the gene lookup
succeeded with a truthy value and the overlap query returned a nonempty
(truncated) list. -/
def variantsPresent (env : Env) : Bool :=
  match env.ensembl_gene with
  | some eg =>
    jxTruthy eg &&
      (match collect_ensembl_variants eg env.overlapHttp with
       | some variants => !variants.isEmpty
       | none => false)
  | none => false

/-- A small truthy JSON object, standing for a successful client body. -/
def someObj : Jx := Jx.obj [(("k".data), Jx.null)]

/-- An environment where the four snp-branch clients all succeed. -/
def envSnpAll : Env :=
  ⟨some someObj, some someObj, some (Jx.arr [Jx.null]), some someObj,
   none, none, none, none⟩

/-- An environment where every gene-branch client succeeds and the
overlap query returns one feature. -/
def envGeneAll : Env :=
  ⟨some someObj, none, none, none,
   some someObj, some [Jx.null], some someObj, some someObj⟩

/-- An environment where only the gene-summary and protein clients
succeed: the annotation client and the gene lookup both fail. -/
def envGeneTail : Env :=
  ⟨none, none, none, none, none, none, some someObj, some someObj⟩

/-- An environment where only the protein client answers, with an empty
(falsy) object. -/
def envEmptyUp : Env :=
  ⟨none, none, none, none, none, none, none, some (Jx.obj [])⟩

/-- An environment where only the clinical-terms client succeeds: the
annotation client, attempted before it, fails. -/
def envSnpOnlyCT : Env :=
  ⟨none, some someObj, none, none, none, none, none, none⟩


theorem toUpper_eq_R (c : Char) : c.toUpper = 'R' ↔ (c = 'r' ∨ c = 'R') := by
  constructor
  · intro h
    unfold Char.toUpper at h
    simp only [] at h
    by_cases hc : 97 ≤ c.toNat ∧ c.toNat ≤ 122
    · rw [if_pos hc] at h
      have h1 : 97 ≤ c.toNat := hc.1
      have h2 : c.toNat ≤ 122 := hc.2
      interval_cases hn : c.toNat
      all_goals (rw [← Char.ofNat_toNat c, hn]; revert h; decide)
    · rw [if_neg hc] at h
      exact Or.inr h
  · rintro (rfl | rfl) <;> decide

theorem toUpper_eq_S (c : Char) : c.toUpper = 'S' ↔ (c = 's' ∨ c = 'S') := by
  constructor
  · intro h
    unfold Char.toUpper at h
    simp only [] at h
    by_cases hc : 97 ≤ c.toNat ∧ c.toNat ≤ 122
    · rw [if_pos hc] at h
      have h1 : 97 ≤ c.toNat := hc.1
      have h2 : c.toNat ≤ 122 := hc.2
      interval_cases hn : c.toNat
      all_goals (rw [← Char.ofNat_toNat c, hn]; revert h; decide)
    · rw [if_neg hc] at h
      exact Or.inr h
  · rintro (rfl | rfl) <;> decide

theorem upper_startsRS (t : PyStr) :
    ['R', 'S'].isPrefixOf (pyUpper t) = true ↔
      ∃ c d rest, t = c :: d :: rest ∧ (c = 'r' ∨ c = 'R') ∧ (d = 's' ∨ d = 'S') := by
  match t with
  | [] => simp [pyUpper, List.isPrefixOf]
  | [c] => simp [pyUpper, List.isPrefixOf]
  | c :: d :: rest =>
    simp only [pyUpper, List.map, List.isPrefixOf, Bool.and_eq_true, beq_iff_eq,
      List.isPrefixOf_nil_left, and_true]
    constructor
    · rintro ⟨h1, h2⟩
      exact ⟨c, d, rest, rfl, (toUpper_eq_R c).mp h1.symm, (toUpper_eq_S d).mp h2.symm⟩
    · rintro ⟨c2, d2, rest2, heq, hc, hd⟩
      cases heq
      exact ⟨((toUpper_eq_R _).mpr hc).symm, ((toUpper_eq_S _).mpr hd).symm⟩

theorem pyReplaceRS_no_occ (s : PyStr) (h : containsRS s = false) :
    pyReplaceRS s = s := by
  induction s using pyReplaceRS.induct with
  | case1 => rfl
  | case2 c => rfl
  | case3 c d rest h1 ih =>
    rw [containsRS] at h
    rcases h1 with ⟨rfl, rfl⟩
    simp at h
  | case4 c d rest h1 ih =>
    rw [containsRS] at h
    simp only [Bool.or_eq_false_iff] at h
    rw [pyReplaceRS, if_neg h1, ih h.2]

theorem record_eq (s : Sources) (k : PyStr) (v : Option Jx) :
    record s k v = s ++ optEntry k v := by
  cases v with
  | none => simp [record, optEntry]
  | some j =>
    by_cases hj : jxTruthy j = true
    · simp [record, optEntry, hj]
    · simp only [Bool.not_eq_true] at hj
      simp [record, optEntry, hj]

theorem sources_char (env : Env) (q : PyStr) :
    (collect_all_data env q).sources =
      optEntry ("myvariant".data) env.myvariant ++
      (if classify_input (pyLower (pyStrip q)) = "snp".data then
        optEntry ("clinicaltables".data) env.clinicaltables ++
        optEntry ("ensembl_vep".data) env.ensembl_vep ++
        optEntry ("ncbi_dbsnp".data) env.ncbi_snp
      else
        geneEntry env ++ variantsEntry env ++
        optEntry ("ncbi_gene".data) env.ncbi_gene ++
        optEntry ("uniprot".data) env.uniprot) := by
  unfold collect_all_data
  simp only [record_eq, List.nil_append]
  split
  · simp [List.append_assoc]
  · unfold geneEntry variantsEntry
    cases hg : env.ensembl_gene with
    | none => simp [List.append_assoc]
    | some eg =>
      by_cases ht : jxTruthy eg = true
      · simp only [ht, if_true]
        cases hv : collect_ensembl_variants eg env.overlapHttp with
        | none => simp [List.append_assoc]
        | some variants =>
          by_cases he : variants.isEmpty
          · simp [he, List.append_assoc]
          · simp [he, List.append_assoc]
      · simp only [Bool.not_eq_true] at ht
        simp [ht, List.append_assoc]


theorem srcKeys_append (a b : Sources) : srcKeys (a ++ b) = srcKeys a ++ srcKeys b :=
  List.map_append _ _ _

theorem srcKeys_optEntry (k : PyStr) (v : Option Jx) :
    srcKeys (optEntry k v) = if optTruthy v = true then [k] else [] := by
  cases v with
  | none => simp [optEntry, srcKeys, optTruthy]
  | some j =>
    by_cases hj : jxTruthy j = true
    · simp [optEntry, srcKeys, optTruthy, hj]
    · simp only [Bool.not_eq_true] at hj
      simp [optEntry, srcKeys, optTruthy, hj]

theorem srcKeys_geneEntry (env : Env) :
    srcKeys (geneEntry env) =
      if optTruthy env.ensembl_gene = true then ["ensembl_gene".data] else [] := by
  cases hg : env.ensembl_gene with
  | none => simp [geneEntry, srcKeys, optTruthy, hg]
  | some eg =>
    by_cases ht : jxTruthy eg = true
    · simp [geneEntry, srcKeys, optTruthy, hg, ht]
    · simp only [Bool.not_eq_true] at ht
      simp [geneEntry, srcKeys, optTruthy, hg, ht]

theorem srcKeys_variantsEntry (env : Env) :
    srcKeys (variantsEntry env) =
      if variantsPresent env = true then ["ensembl_variants".data] else [] := by
  cases hg : env.ensembl_gene with
  | none => simp [variantsEntry, variantsPresent, srcKeys, hg]
  | some eg =>
    by_cases ht : jxTruthy eg = true
    · cases hv : collect_ensembl_variants eg env.overlapHttp with
      | none => simp [variantsEntry, variantsPresent, srcKeys, hg, ht, hv]
      | some variants =>
        by_cases he : variants.isEmpty
        · simp [variantsEntry, variantsPresent, srcKeys, hg, ht, hv, he]
        · simp [variantsEntry, variantsPresent, srcKeys, hg, ht, hv, he]
    · simp only [Bool.not_eq_true] at ht
      simp [variantsEntry, variantsPresent, srcKeys, hg, ht]

theorem lookupSrc_append_none (a b : Sources) (k : PyStr)
    (h : lookupSrc a k = none) : lookupSrc (a ++ b) k = lookupSrc b k := by
  induction a with
  | nil => rfl
  | cons hd tl ih =>
    obtain ⟨k2, v⟩ := hd
    rw [lookupSrc] at h
    by_cases hk : k2 = k
    · rw [if_pos hk] at h; exact absurd h (by simp)
    · rw [if_neg hk] at h
      simpa [lookupSrc, hk] using ih h

theorem lookupSrc_optEntry_ne (k2 k : PyStr) (v : Option Jx) (h : k2 ≠ k) :
    lookupSrc (optEntry k2 v) k = none := by
  cases v with
  | none => rfl
  | some j =>
    by_cases hj : jxTruthy j = true
    · simp [optEntry, lookupSrc, hj, h]
    · simp only [Bool.not_eq_true] at hj
      simp [optEntry, lookupSrc, hj]

theorem collect_ensembl_variants_shape (gd : Jx) (h : Option (List Jx))
    (v : List Jx) (hv : collect_ensembl_variants gd h = some v) :
    v.length ≤ 10 ∧ v.take 10 = v := by
  unfold collect_ensembl_variants at hv
  by_cases ht : jxTruthy gd = true
  · rw [if_pos ht] at hv
    cases h with
    | none => exact absurd hv (by simp)
    | some xs =>
      simp only [Option.some.injEq] at hv
      subst hv
      refine ⟨?_, ?_⟩
      · simp [List.length_take]
      · rw [List.take_take]
        norm_num
  · simp only [Bool.not_eq_true] at ht
    rw [if_neg (by simp [ht])] at hv
    exact absurd hv (by simp)

/-- C1 (amended): the `query` field of the final ResultPayload is the raw
input string passed to `run`, not the normalized text; it coincides with
the AggregateRecord's normalized `query` exactly when the raw input is
already trimmed and lowercased. -/
theorem run_query_is_raw (env : Env) (f : AggregateRecord → PyStr) (q : PyStr) :
    (run env f q).query = q ∧
    ((run env f q).query = (collect_all_data env q).query ↔
      q = pyLower (pyStrip q)) := by
  constructor
  · rfl
  · have h1 : (run env f q).query = q := rfl
    have h2 : (collect_all_data env q).query = pyLower (pyStrip q) := rfl
    rw [h1, h2]

/-- C1, counterexample: on the raw query `"  BRCA1 "` the ResultPayload's
`query` field differs from the AggregateRecord's normalized `query`. -/
theorem run_query_is_raw_cx :
    (run failEnv (fun _ => []) ("  BRCA1 ".data)).query ≠
      (collect_all_data failEnv ("  BRCA1 ".data)).query := by decide

/-- C2 (amended): the id queried by the SNP-summary client is the
identifier lowercased with every occurrence of `rs` removed; in
particular a leading `rs`/`RS` prefix is stripped whenever the remainder
contains no further occurrence of `rs` after case folding. -/
theorem collect_ncbi_snp_id_amended (tail : PyStr)
    (h : containsRS (pyLower tail) = false) :
    collect_ncbi_snp_id ('r' :: 's' :: tail) = pyLower tail ∧
    collect_ncbi_snp_id ('R' :: 'S' :: tail) = pyLower tail := by
  have hlow : ∀ c d : Char, c.toLower = 'r' → d.toLower = 's' →
      collect_ncbi_snp_id (c :: d :: tail) = pyLower tail := by
    intro c d hc hd
    unfold collect_ncbi_snp_id
    show pyReplaceRS (pyLower (c :: d :: tail)) = pyLower tail
    have : pyLower (c :: d :: tail) = c.toLower :: d.toLower :: pyLower tail := rfl
    rw [this, hc, hd, pyReplaceRS, if_pos ⟨rfl, rfl⟩]
    exact pyReplaceRS_no_occ _ h
  exact ⟨hlow 'r' 's' (by decide) (by decide), hlow 'R' 'S' (by decide) (by decide)⟩

/-- C2, witness: the amended statement at the identifier `rs429358`. -/
theorem collect_ncbi_snp_id_amended_witness :
    containsRS (pyLower ("429358".data)) = false ∧
    collect_ncbi_snp_id ('r' :: 's' :: ("429358".data)) = pyLower ("429358".data) :=
  ⟨by decide, (collect_ncbi_snp_id_amended ("429358".data) (by decide)).1⟩

/-- C2, counterexample: on `"rs12rs34"` the code queries `"1234"` (every
`rs` occurrence removed), not `"12rs34"` (only the leading prefix
removed) as the claim states. -/
theorem collect_ncbi_snp_id_cx :
    collect_ncbi_snp_id ("rs12rs34".data) = "1234".data ∧
    collect_ncbi_snp_id ("rs12rs34".data) ≠ "12rs34".data := by decide

/-- C3: `classify_input` returns `snp` exactly when the trimmed input
starts with the two characters `r`/`R` then `s`/`S`; it returns `gene`
in every other case, and the four spec examples hold. -/
theorem classify_input_spec (s : PyStr) :
    (classify_input s = "snp".data ↔
      ∃ c d rest, pyStrip s = c :: d :: rest ∧
        (c = 'r' ∨ c = 'R') ∧ (d = 's' ∨ d = 'S')) ∧
    (classify_input s = "snp".data ∨ classify_input s = "gene".data) ∧
    classify_input ("rs123".data) = "snp".data ∧
    classify_input ("RS999".data) = "snp".data ∧
    classify_input ("BRCA1".data) = "gene".data ∧
    classify_input ("  rs7412  ".data) = "snp".data := by
  refine ⟨?_, ?_, by decide, by decide, by decide, by decide⟩
  · unfold classify_input
    by_cases h : ['R', 'S'].isPrefixOf (pyUpper (pyStrip s)) = true
    · rw [if_pos h]
      exact iff_of_true rfl ((upper_startsRS _).mp h)
    · rw [if_neg h]
      apply iff_of_false
      · intro habs
        exact absurd habs (by decide)
      · intro hex
        exact h ((upper_startsRS _).mpr hex)
  · unfold classify_input
    split
    · exact Or.inl rfl
    · exact Or.inr rfl


theorem classify_cases (s : PyStr) :
    classify_input s = "snp".data ∨ classify_input s = "gene".data := by
  unfold classify_input
  split
  · exact Or.inl rfl
  · exact Or.inr rfl

theorem mem_ite_singleton (k k2 : PyStr) (b : Bool) :
    (k ∈ (if b = true then [k2] else [])) ↔ (b = true ∧ k = k2) := by
  by_cases hb : b = true
  · simp [hb]
  · simp [hb]

theorem variantsPresent_imp (env : Env) (h : variantsPresent env = true) :
    optTruthy env.ensembl_gene = true := by
  unfold variantsPresent at h
  cases hg : env.ensembl_gene with
  | none => rw [hg] at h; exact absurd h (by simp)
  | some eg =>
    rw [hg] at h
    simp only [Bool.and_eq_true] at h
    simp [optTruthy, hg, h.1]

theorem type_eq_classify (env : Env) (q : PyStr) :
    (collect_all_data env q).type = classify_input (pyLower (pyStrip q)) := rfl

/-- C4: the keys of `sources` are drawn from the per-kind source set:
for kind `snp` they lie in `snpKeys`, for kind `gene` in `geneKeys`. -/
theorem routing_per_kind (env : Env) (q : PyStr) (k : PyStr)
    (hk : k ∈ srcKeys (collect_all_data env q).sources) :
    ((collect_all_data env q).type = "snp".data → k ∈ snpKeys) ∧
    ((collect_all_data env q).type = "gene".data → k ∈ geneKeys) := by
  rw [sources_char] at hk
  by_cases hc : classify_input (pyLower (pyStrip q)) = "snp".data
  · rw [if_pos hc] at hk
    constructor
    · intro _
      simp only [srcKeys_append, srcKeys_optEntry, List.mem_append,
        mem_ite_singleton, or_assoc] at hk
      unfold snpKeys
      rcases hk with (⟨_, rfl⟩ | ⟨_, rfl⟩ | ⟨_, rfl⟩ | ⟨_, rfl⟩) <;> simp
    · intro hg
      rw [type_eq_classify, hc] at hg
      exact absurd hg (by decide)
  · rw [if_neg hc] at hk
    constructor
    · intro hs
      rw [type_eq_classify] at hs
      exact absurd hs hc
    · intro _
      simp only [srcKeys_append, srcKeys_geneEntry, srcKeys_variantsEntry,
        srcKeys_optEntry, List.mem_append, mem_ite_singleton, or_assoc] at hk
      unfold geneKeys
      rcases hk with (⟨_, rfl⟩ | ⟨_, rfl⟩ | ⟨_, rfl⟩ | ⟨_, rfl⟩ | ⟨_, rfl⟩) <;> simp

/-- C4, witness: for the snp query `rs1` with all four snp clients
succeeding, the recorded key `myvariant` lies in the snp source set. -/
theorem routing_per_kind_witness : ("myvariant".data : PyStr) ∈ snpKeys :=
  (routing_per_kind envSnpAll ("rs1".data) ("myvariant".data) (by decide)).1 rfl

/-- C5: `ensembl_variants` appears among the source keys only if
`ensembl_gene` does. -/
theorem variants_requires_gene (env : Env) (q : PyStr)
    (h : ("ensembl_variants".data : PyStr) ∈
      srcKeys (collect_all_data env q).sources) :
    ("ensembl_gene".data : PyStr) ∈ srcKeys (collect_all_data env q).sources := by
  rw [sources_char] at h ⊢
  by_cases hc : classify_input (pyLower (pyStrip q)) = "snp".data
  · rw [if_pos hc] at h
    simp only [srcKeys_append, srcKeys_optEntry, List.mem_append,
      mem_ite_singleton] at h
    simp at h
  · rw [if_neg hc] at h ⊢
    simp only [srcKeys_append, srcKeys_geneEntry, srcKeys_variantsEntry,
      srcKeys_optEntry, List.mem_append, mem_ite_singleton] at h ⊢
    simp only [and_false, false_or, or_false, and_true] at h ⊢
    simp at h
    have hg := variantsPresent_imp env h
    simp [hg]

/-- C5, witness: in a run where the gene lookup and the overlap query
both succeed, both keys are recorded and the theorem applies. -/
theorem variants_requires_gene_witness :
    ("ensembl_gene".data : PyStr) ∈
      srcKeys (collect_all_data envGeneAll ("brca1".data)).sources :=
  variants_requires_gene envGeneAll ("brca1".data) (by decide)


theorem lookupSrc_eq_none (s : Sources) (k : PyStr) (h : k ∉ srcKeys s) :
    lookupSrc s k = none := by
  induction s with
  | nil => rfl
  | cons hd tl ih =>
    obtain ⟨k2, v⟩ := hd
    simp only [srcKeys, List.map_cons, List.mem_cons, not_or] at h
    have hne : ¬(k2 = k) := fun hkk => h.1 hkk.symm
    show (if k2 = k then some v else lookupSrc tl k) = none
    rw [if_neg hne]
    exact ih h.2

theorem lookupSrc_geneEntry_ne (env : Env) (k : PyStr)
    (h : ("ensembl_gene".data : PyStr) ≠ k) :
    lookupSrc (geneEntry env) k = none := by
  cases hg : env.ensembl_gene with
  | none => simp [geneEntry, lookupSrc, hg]
  | some eg =>
    by_cases ht : jxTruthy eg = true
    · simp [geneEntry, lookupSrc, hg, ht, h]
    · simp only [Bool.not_eq_true] at ht
      simp [geneEntry, lookupSrc, hg, ht]

theorem variantsEntry_cases (env : Env) :
    variantsEntry env = [] ∨
    ∃ eg xs, env.ensembl_gene = some eg ∧ jxTruthy eg = true ∧
      env.overlapHttp = some xs ∧ (xs.take 10).isEmpty = false ∧
      variantsEntry env = [(("ensembl_variants".data),
        Jx.obj [(("count".data), Jx.num ((xs.take 10).length : Int)),
                (("sample".data), Jx.arr ((xs.take 10).take 10))])] := by
  cases hg : env.ensembl_gene with
  | none => exact Or.inl (by simp [variantsEntry, hg])
  | some eg =>
    by_cases ht : jxTruthy eg = true
    · cases hoh : env.overlapHttp with
      | none =>
        exact Or.inl (by simp [variantsEntry, hg, ht, collect_ensembl_variants, hoh])
      | some xs =>
        by_cases he : (xs.take 10).isEmpty = true
        · exact Or.inl
            (by simp [variantsEntry, hg, ht, collect_ensembl_variants, hoh, he])
        · refine Or.inr ⟨eg, xs, rfl, ht, rfl, by simpa using he, ?_⟩
          simp only [Bool.not_eq_true] at he
          simp [variantsEntry, hg, ht, collect_ensembl_variants, hoh, he]
    · simp only [Bool.not_eq_true] at ht
      exact Or.inl (by simp [variantsEntry, hg, ht])


theorem lookupSrc_append_not_mem (a b : Sources) (k : PyStr)
    (h : k ∉ srcKeys a) : lookupSrc (a ++ b) k = lookupSrc b k :=
  lookupSrc_append_none _ _ _ (lookupSrc_eq_none _ _ h)

theorem srcKeys_nil : srcKeys ([] : Sources) = [] := rfl

theorem mem_of_lookupSrc_some (s : Sources) (k : PyStr) (j : Jx)
    (h : lookupSrc s k = some j) : k ∈ srcKeys s := by
  induction s with
  | nil => exact Option.noConfusion h
  | cons hd tl ih =>
    obtain ⟨k2, v⟩ := hd
    have h1 : (if k2 = k then some v else lookupSrc tl k) = some j := h
    show k ∈ k2 :: srcKeys tl
    by_cases hk : k2 = k
    · cases hk
      exact List.mem_cons_self _ _
    · rw [if_neg hk] at h1
      exact List.mem_cons_of_mem _ (ih h1)

/-- C6: the region/overlap client truncates the upstream result to its
first 10 entries, and any recorded `ensembl_variants` entry is an object
whose `count` equals the length of its `sample` list, which never
exceeds 10. -/
theorem variants_truncation (gd : Jx) (xs : List Jx) (env : Env) (q : PyStr)
    (j : Jx) :
    (jxTruthy gd = true →
      collect_ensembl_variants gd (some xs) = some (xs.take 10) ∧
      (xs.take 10).length ≤ 10) ∧
    (lookupSrc (collect_all_data env q).sources ("ensembl_variants".data) =
        some j →
      ∃ ys : List Jx,
        j = Jx.obj [(("count".data), Jx.num ((ys.length : Int))),
                    (("sample".data), Jx.arr ys)] ∧
        ys.length ≤ 10) := by
  constructor
  · intro ht
    refine ⟨?_, by simp [List.length_take]⟩
    unfold collect_ensembl_variants
    rw [if_pos ht]
  · intro hl
    rw [sources_char] at hl
    by_cases hc : classify_input (pyLower (pyStrip q)) = "snp".data
    · rw [if_pos hc] at hl
      have hk := mem_of_lookupSrc_some _ _ _ hl
      simp only [srcKeys_append, srcKeys_optEntry, List.mem_append,
        mem_ite_singleton] at hk
      simp at hk
    · rw [if_neg hc] at hl
      rcases variantsEntry_cases env with hv | ⟨eg, xs2, hg, ht, hoh, hne, hv⟩
      · have hk := mem_of_lookupSrc_some _ _ _ hl
        simp only [srcKeys_append, srcKeys_optEntry, srcKeys_geneEntry,
          hv, srcKeys_nil, List.mem_append, mem_ite_singleton] at hk
        simp at hk
      · rw [hv] at hl
        simp only [List.append_assoc] at hl
        rw [lookupSrc_append_not_mem _ _ _ (by
          simp only [srcKeys_optEntry, mem_ite_singleton]
          simp)] at hl
        rw [lookupSrc_append_not_mem _ _ _ (by
          simp only [srcKeys_geneEntry, mem_ite_singleton]
          simp)] at hl
        rw [show lookupSrc ([(("ensembl_variants".data),
            Jx.obj [(("count".data), Jx.num (((xs2.take 10).length : Int))),
                    (("sample".data), Jx.arr ((xs2.take 10).take 10))])] ++
            (optEntry ("ncbi_gene".data) env.ncbi_gene ++
             optEntry ("uniprot".data) env.uniprot))
            ("ensembl_variants".data) =
          some (Jx.obj [(("count".data), Jx.num (((xs2.take 10).length : Int))),
                        (("sample".data), Jx.arr ((xs2.take 10).take 10))])
          from by simp [lookupSrc]] at hl
        simp only [Option.some.injEq] at hl
        refine ⟨xs2.take 10, ?_, by simp [List.length_take]⟩
        rw [← hl, List.take_take]
        norm_num

/-- C6, witness: a run whose overlap query returns one feature records
`count = 1` with a one-element `sample`. -/
theorem variants_truncation_witness :
    (collect_ensembl_variants someObj (some [Jx.null]) =
        some ([Jx.null].take 10) ∧ ([Jx.null].take 10).length ≤ 10) ∧
    (∃ ys : List Jx,
      Jx.obj [(("count".data), Jx.num ((1 : Nat) : Int)),
              (("sample".data), Jx.arr [Jx.null])] =
        Jx.obj [(("count".data), Jx.num ((ys.length : Int))),
                (("sample".data), Jx.arr ys)] ∧
      ys.length ≤ 10) := by
  have h := variants_truncation someObj [Jx.null] envGeneAll ("brca1".data)
    (Jx.obj [(("count".data), Jx.num ((1 : Nat) : Int)),
             (("sample".data), Jx.arr [Jx.null])])
  exact ⟨h.1 rfl, h.2 rfl⟩

/-- C7: when every client fails, `collect_all_data` still returns a full
AggregateRecord whose `sources` mapping is empty. -/
theorem collect_all_fail_soft (q : PyStr) :
    (collect_all_data failEnv q).sources = [] ∧
    (collect_all_data failEnv q).query = pyLower (pyStrip q) ∧
    (collect_all_data failEnv q).type = classify_input (pyLower (pyStrip q)) := by
  refine ⟨?_, rfl, rfl⟩
  rw [sources_char]
  simp [optEntry, geneEntry, variantsEntry, failEnv]

/-- C8: for every query and every combination of client outcomes, each
source key's presence depends only on that client's own outcome (for
`ensembl_variants`, on the gene lookup plus the overlap result, the
specified exception), never on the success or failure of the clients
attempted before it: `myvariant` unconditionally, the three snp-path
clients under snp classification, and the gene-path clients under gene
classification; in particular `ncbi_gene` and `uniprot` are recorded
whenever their own clients succeed, even when `myvariant` and the gene
lookup both fail. -/
theorem sources_independent (env : Env) (q : PyStr) :
    ((("myvariant".data : PyStr) ∈
        srcKeys (collect_all_data env q).sources) ↔
      optTruthy env.myvariant = true) ∧
    ((collect_all_data env q).type = "snp".data →
      ((("clinicaltables".data : PyStr) ∈
          srcKeys (collect_all_data env q).sources) ↔
        optTruthy env.clinicaltables = true) ∧
      ((("ensembl_vep".data : PyStr) ∈
          srcKeys (collect_all_data env q).sources) ↔
        optTruthy env.ensembl_vep = true) ∧
      ((("ncbi_dbsnp".data : PyStr) ∈
          srcKeys (collect_all_data env q).sources) ↔
        optTruthy env.ncbi_snp = true)) ∧
    ((collect_all_data env q).type = "gene".data →
      ((("ensembl_gene".data : PyStr) ∈
          srcKeys (collect_all_data env q).sources) ↔
        optTruthy env.ensembl_gene = true) ∧
      ((("ensembl_variants".data : PyStr) ∈
          srcKeys (collect_all_data env q).sources) ↔
        variantsPresent env = true) ∧
      ((("ncbi_gene".data : PyStr) ∈
          srcKeys (collect_all_data env q).sources) ↔
        optTruthy env.ncbi_gene = true) ∧
      ((("uniprot".data : PyStr) ∈
          srcKeys (collect_all_data env q).sources) ↔
        optTruthy env.uniprot = true)) := by
  refine ⟨?_, ?_, ?_⟩
  · rw [sources_char]
    by_cases hc : classify_input (pyLower (pyStrip q)) = "snp".data
    · rw [if_pos hc]
      simp only [srcKeys_append, srcKeys_optEntry, List.mem_append,
        mem_ite_singleton]
      simp
    · rw [if_neg hc]
      simp only [srcKeys_append, srcKeys_geneEntry, srcKeys_variantsEntry,
        srcKeys_optEntry, List.mem_append, mem_ite_singleton]
      simp
  · intro hs
    have hc : classify_input (pyLower (pyStrip q)) = "snp".data := by
      rw [← type_eq_classify env q]
      exact hs
    refine ⟨?_, ?_, ?_⟩ <;>
      · rw [sources_char, if_pos hc]
        simp only [srcKeys_append, srcKeys_optEntry, List.mem_append,
          mem_ite_singleton]
        simp
  · intro hg
    have hc : ¬ classify_input (pyLower (pyStrip q)) = "snp".data := by
      intro hs
      have : ("snp".data : PyStr) = "gene".data := by
        rw [← hs, ← type_eq_classify env q, hg]
      exact absurd this (by decide)
    refine ⟨?_, ?_, ?_, ?_⟩ <;>
      · rw [sources_char, if_neg hc]
        simp only [srcKeys_append, srcKeys_geneEntry, srcKeys_variantsEntry,
          srcKeys_optEntry, List.mem_append, mem_ite_singleton]
        simp

/-- C8, witness: on the snp side, `clinicaltables` is recorded although
`myvariant`, attempted before it, failed; on the gene side, `ncbi_gene`
is recorded although `myvariant` and the gene lookup both failed. -/
theorem sources_independent_witness :
    (("clinicaltables".data : PyStr) ∈
      srcKeys (collect_all_data envSnpOnlyCT ("rs1".data)).sources) ∧
    (("ncbi_gene".data : PyStr) ∈
      srcKeys (collect_all_data envGeneTail ("brca1".data)).sources) := by
  have h1 := sources_independent envSnpOnlyCT ("rs1".data)
  have h2 := sources_independent envGeneTail ("brca1".data)
  exact ⟨(h1.2.1 (by decide)).1.mpr (by decide),
         (h2.2.2 (by decide)).2.2.1.mpr (by decide)⟩

/-- C9: for the query `rs429358` with all four snp-path clients
succeeding, the ResultPayload lists exactly the four snp sources in
invocation order, in both `data_sources_used` and the keys of
`raw_data`. -/
theorem end_to_end_rs429358 (f : AggregateRecord → PyStr) :
    (run envSnpAll f ("rs429358".data)).data_sources_used =
      ["myvariant".data, "clinicaltables".data,
       "ensembl_vep".data, "ncbi_dbsnp".data] ∧
    srcKeys (run envSnpAll f ("rs429358".data)).raw_data =
      ["myvariant".data, "clinicaltables".data,
       "ensembl_vep".data, "ncbi_dbsnp".data] ∧
    (run envSnpAll f ("rs429358".data)).type = "snp".data :=
  ⟨rfl, rfl, rfl⟩


theorem variantsPresent_overlap_empty (env : Env)
    (hoh : env.overlapHttp = some []) : variantsPresent env = false := by
  unfold variantsPresent
  cases hg : env.ensembl_gene with
  | none => rfl
  | some eg =>
    by_cases ht : jxTruthy eg = true
    · simp [collect_ensembl_variants, ht, hoh]
    · simp only [Bool.not_eq_true] at ht
      simp [ht]

/-- C10: a client result that is produced but falsy-empty (an empty
dict, or an overlap query answering with zero features) leaves `sources`
exactly as if the client had returned `None`: the key is omitted and the
two runs are indistinguishable. -/
theorem empty_result_is_unavailable (env : Env) (q : PyStr) (v : Jx)
    (hv : jxTruthy v = false) :
    (env.myvariant = some v →
      (collect_all_data env q).sources =
        (collect_all_data { env with myvariant := none } q).sources) ∧
    (env.clinicaltables = some v →
      (collect_all_data env q).sources =
        (collect_all_data { env with clinicaltables := none } q).sources) ∧
    (env.ensembl_vep = some v →
      (collect_all_data env q).sources =
        (collect_all_data { env with ensembl_vep := none } q).sources) ∧
    (env.ncbi_snp = some v →
      (collect_all_data env q).sources =
        (collect_all_data { env with ncbi_snp := none } q).sources) ∧
    (env.ensembl_gene = some v →
      (collect_all_data env q).sources =
        (collect_all_data { env with ensembl_gene := none } q).sources) ∧
    (env.ncbi_gene = some v →
      (collect_all_data env q).sources =
        (collect_all_data { env with ncbi_gene := none } q).sources) ∧
    (env.uniprot = some v →
      (collect_all_data env q).sources =
        (collect_all_data { env with uniprot := none } q).sources) ∧
    (env.overlapHttp = some [] →
      (collect_all_data env q).sources =
        (collect_all_data { env with overlapHttp := none } q).sources) ∧
    (env.overlapHttp = some [] →
      ("ensembl_variants".data : PyStr) ∉
        srcKeys (collect_all_data env q).sources) := by
  refine ⟨?_, ?_, ?_, ?_, ?_, ?_, ?_, ?_, ?_⟩ <;> intro h
  · rw [sources_char, sources_char]
    simp [optEntry, geneEntry, variantsEntry, h, hv]
  · rw [sources_char, sources_char]
    simp [optEntry, geneEntry, variantsEntry, h, hv]
  · rw [sources_char, sources_char]
    simp [optEntry, geneEntry, variantsEntry, h, hv]
  · rw [sources_char, sources_char]
    simp [optEntry, geneEntry, variantsEntry, h, hv]
  · rw [sources_char, sources_char]
    simp [optEntry, geneEntry, variantsEntry, h, hv]
  · rw [sources_char, sources_char]
    simp [optEntry, geneEntry, variantsEntry, h, hv]
  · rw [sources_char, sources_char]
    simp [optEntry, geneEntry, variantsEntry, h, hv]
  · rw [sources_char, sources_char]
    cases hg : env.ensembl_gene with
    | none => simp [geneEntry, variantsEntry, hg]
    | some eg =>
      by_cases ht : jxTruthy eg = true
      · simp [geneEntry, variantsEntry, collect_ensembl_variants, hg, ht, h]
      · simp only [Bool.not_eq_true] at ht
        simp [geneEntry, variantsEntry, hg, ht]
  · rw [sources_char]
    by_cases hc : classify_input (pyLower (pyStrip q)) = "snp".data
    · rw [if_pos hc]
      simp only [srcKeys_append, srcKeys_optEntry, List.mem_append,
        mem_ite_singleton]
      simp
    · rw [if_neg hc]
      simp only [srcKeys_append, srcKeys_optEntry, srcKeys_geneEntry,
        srcKeys_variantsEntry, List.mem_append, mem_ite_singleton]
      simp [variantsPresent_overlap_empty env h]

/-- C10, witness: a `uniprot` client returning an empty dict leaves
`sources` identical to the run where it returned `None`. -/
theorem empty_result_is_unavailable_witness :
    (collect_all_data envEmptyUp ("tp53".data)).sources =
      (collect_all_data { envEmptyUp with uniprot := none } ("tp53".data)).sources :=
  (empty_result_is_unavailable envEmptyUp ("tp53".data) (Jx.obj []) rfl).2.2.2.2.2.2.1 rfl

end Bioinfo
